import Mathlib

/- Verification of the MCP-HUB-V8 retrieval and grounding engine against its
   natural-language specification.

   Modelling conventions, applied uniformly:
   * Python floating point values are modelled by exact rationals; the
     verified claims only concern comparisons, clamping and exact formulas,
     never rounding behaviour.
   * Wall-clock timestamps are threaded as explicit string parameters or
     omitted where no claim depends on them.
   * Injected collaborators that live outside the analysed sources (the
     vector engine's `embed_query` / `cosine_similarity`) are taken as
     function parameters, mirroring their injection through constructors
     in the source.
   * Python dicts with a fixed key set become structures; keys that are
     present only on some return paths become `Option` fields, where
     `none` models an absent key. -/

namespace MCPHub

/-- Vectors are modelled as lists of rationals (numpy arrays in the source).
    The `float32` casts of the source are identities here. -/
abbrev Vec := List ℚ

/-- Pointwise vector addition (`numpy` `+=` on equal-length rows). -/
def vecAdd (u v : Vec) : Vec := List.zipWith (· + ·) u v

/-- Scalar multiplication (`vector * weight` in the source). -/
def vecSmul (a : ℚ) (v : Vec) : Vec := v.map (fun x => a * x)

/-- Scalar division (`vector /= total_weight`). -/
def vecDiv (v : Vec) (a : ℚ) : Vec := v.map (fun x => x / a)

/-- `np.zeros(dim)`. -/
def vecZeros (n : Nat) : Vec := List.replicate n 0

/- ===================================================================
   core/advanced_features/factual_audit_jepa.py  —  FactualAuditJEPA
   =================================================================== -/

/-- One world-model anchor fact (an entry of `self.facts` in the source). -/
structure TruthFact where
  source : String
  content : String
  vector : Vec

/-- Result dictionary of `FactualAuditJEPA.audit_proposal`.  The source
    returns plain dicts whose key set differs per return path: the
    empty-corpus early return carries neither an `anchors` nor a
    `contradictions` key, which is modelled by `none`. -/
structure AuditResult where
  score : ℚ
  alignment : Option ℚ
  status : String
  anchors : Option (List String)
  contradictions : Option (List String)
  message : String

/-- Status mapping at the end of `audit_proposal` (lines 146-150 of the
    source): `trusted` is the default, overridden to `hallucination_detected`
    below 0.4 and to `suspicious` below 0.5 or on any contradiction. -/
def auditStatus (final_score : ℚ) (contradictions : List String) : String :=
  if final_score < (2:ℚ)/5 then "hallucination_detected"
  else if final_score < (1:ℚ)/2 ∨ ¬ contradictions.isEmpty then "suspicious"
  else "trusted"

/-- Ideal latent state (source lines 114-126): similarity-weighted sum of the
    anchor vectors, divided by the total weight when that is positive. -/
def auditIdealState (top_anchors : List (ℚ × TruthFact)) (vector_dim : Nat) : Vec :=
  let acc := top_anchors.foldl
    (fun (acc : Vec × ℚ) p => (vecAdd acc.1 (vecSmul p.1 p.2.vector), acc.2 + p.1))
    (vecZeros vector_dim, 0)
  if 0 < acc.2 then vecDiv acc.1 acc.2 else acc.1

/-- `alignment` (source line 132): cosine between the observed proposal and
    the ideal latent state. -/
def auditAlignment (cosine_similarity : Vec → Vec → ℚ) (proposal_vec : Vec)
    (top_anchors : List (ℚ × TruthFact)) (vector_dim : Nat) : ℚ :=
  cosine_similarity proposal_vec (auditIdealState top_anchors vector_dim)

/-- `contradictions` (source lines 134-139): one message per anchor whose
    cosine with the proposal falls below 0.4, in anchor order. -/
def auditContradictions (cosine_similarity : Vec → Vec → ℚ) (proposal_vec : Vec)
    (top_anchors : List (ℚ × TruthFact)) : List String :=
  (top_anchors.filter
    (fun p => decide (cosine_similarity proposal_vec p.2.vector < (2:ℚ)/5))).map
    (fun p => "Proposal contradicts or ignores rules in " ++ p.2.source)

/-- `final_score` (source lines 141-143): alignment penalised by 0.2 per
    contradiction, clamped to `[0, 1]`. -/
def auditFinalScore (cosine_similarity : Vec → Vec → ℚ) (proposal_vec : Vec)
    (top_anchors : List (ℚ × TruthFact)) (vector_dim : Nat) : ℚ :=
  max 0 (min 1 (auditAlignment cosine_similarity proposal_vec top_anchors vector_dim *
    (1 - (1:ℚ)/5 * (auditContradictions cosine_similarity proposal_vec top_anchors).length)))

/-- Main branch of `audit_proposal` (source lines 114-159), reached with a
    non-empty `top_anchors` list. -/
def auditMain (cosine_similarity : Vec → Vec → ℚ) (proposal_vec : Vec)
    (top_anchors : List (ℚ × TruthFact)) (vector_dim : Nat) : AuditResult :=
  { score := auditFinalScore cosine_similarity proposal_vec top_anchors vector_dim,
    alignment := some (auditAlignment cosine_similarity proposal_vec top_anchors vector_dim),
    status := auditStatus (auditFinalScore cosine_similarity proposal_vec top_anchors vector_dim)
      (auditContradictions cosine_similarity proposal_vec top_anchors),
    anchors := some (top_anchors.map (fun p => p.2.source)),
    contradictions := some (auditContradictions cosine_similarity proposal_vec top_anchors),
    message := "Factual consistency: "
      ++ toString (auditFinalScore cosine_similarity proposal_vec top_anchors vector_dim)
      ++ ". Status: "
      ++ auditStatus (auditFinalScore cosine_similarity proposal_vec top_anchors vector_dim)
        (auditContradictions cosine_similarity proposal_vec top_anchors) }

/-- Ranked anchor candidates (source lines 97-103): every fact paired with
    its cosine to the query vector, sorted by descending similarity (stable,
    like Python's `list.sort`), truncated to 3 and filtered to cosine
    strictly above 0.5. -/
def topAnchors (cosine_similarity : Vec → Vec → ℚ) (query_vec : Vec)
    (facts : List TruthFact) : List (ℚ × TruthFact) :=
  (((facts.map (fun fact => (cosine_similarity query_vec fact.vector, fact))).insertionSort
    (fun a b => b.1 ≤ a.1)).take 3).filter (fun a => decide ((1:ℚ)/2 < a.1))

/-- Shallow embedding of `FactualAuditJEPA.audit_proposal`.  The vector
    engine operations are parameters (they are injected via the constructor
    in the source); `facts` is the prebuilt world model. -/
def audit_proposal (cosine_similarity : Vec → Vec → ℚ) (embed_query : String → Vec)
    (facts : List TruthFact) (query proposal : String) : AuditResult :=
  if facts.isEmpty then
    { score := 1, alignment := none, status := "unverified",
      anchors := none, contradictions := none,
      message := "No project context available for audit." }
  else
    match topAnchors cosine_similarity (embed_query query) facts with
    | [] =>
      { score := 1, alignment := none, status := "unverified",
        anchors := some [], contradictions := some [],
        message := "No project context available for audit." }
    | a :: rest =>
      auditMain cosine_similarity (embed_query proposal) (a :: rest) a.2.vector.length

/- ===================================================================
   core/v6.py  —  MCPServerV6 handlers
   =================================================================== -/

/-- One chunk of the loaded snapshot (`self.storage.chunks` entries).
    `text` is the value of `chunk.get_text()`; the Python field named
    `section` is called `sect` here (`section` is a Lean keyword). -/
structure Chunk where
  chunk_id : Nat
  file_path : String
  start_line : Nat
  end_line : Nat
  text : String
  sect : String

/-- `next((c for c in self.storage.chunks if c.chunk_id == eid), None)`. -/
def findChunk (chunks : List Chunk) (cid : Nat) : Option Chunk :=
  chunks.find? (fun c => c.chunk_id == cid)

/-- A retained retrieval hit (source lines 1315-1323 of `core/v6.py`). -/
structure ContextResult where
  chunk_id : Nat
  file : String
  start_line : Nat
  end_line : Nat
  text : String
  score : ℚ
  sect : String

/-- One `_meta.provenance` entry (source lines 1362-1370).  The
    `round(score, 3)` display rounding is not modelled. -/
structure ProvenanceEntry where
  chunk_id : Nat
  file : String
  lines : String
  score : ℚ

/-- The `_meta` object built by `_get_context_direct`.  `time_ms`,
    `expanded_queries` and `confidence_calibration` depend on wall clock
    and on optional collaborators and carry no verified claim; they are
    omitted. -/
structure ContextMeta where
  query : String
  results_count : Nat
  abstained : Bool
  provenance : List ProvenanceEntry

/-- A dispatcher response: a single text content part plus `_meta`. -/
structure ToolResponse where
  content_text : String
  meta : ContextMeta

/-- The fixed abstention text (source line 1345). -/
def NO_INFO_TEXT : String := "No sufficient information found in memory for this query."

/-- Result assembly loop of `_get_context_direct` (source lines 1308-1323):
    keep each `(chunk_id, score)` pair whose score is at least `min_score`
    and whose chunk id resolves in the store. -/
def contextResults (chunks : List Chunk) (search_results : List (Nat × ℚ))
    (min_score : ℚ) : List ContextResult :=
  search_results.filterMap (fun p =>
    if p.2 < min_score then none
    else (findChunk chunks p.1).map (fun c =>
      { chunk_id := p.1, file := c.file_path, start_line := c.start_line,
        end_line := c.end_line, text := c.text, score := p.2, sect := c.sect }))

/-- `_format_context_response` (source lines 1383-1389).  Numeric formatting
    (`{score:.3f}`) is abstracted to `toString`. -/
def format_context_response (query : String) (results : List ContextResult) : String :=
  (results.enum.foldl (fun acc p =>
    acc ++ toString (p.1 + 1) ++ ". " ++ p.2.file ++ " (lines " ++ toString p.2.start_line
      ++ "-" ++ toString p.2.end_line ++ ", score: " ++ toString p.2.score ++ ")\n"
      ++ p.2.text.take 200 ++ "...\n\n"))
    ("Context for: " ++ query ++ "\n\n")

/-- Shallow embedding of `MCPServerV6._get_context_direct` (source lines
    1254-1381).  The vector engine is an external collaborator: its output
    `zip(chunk_ids, scores)` is the `search_results` parameter.  The dead
    MVR/calibration prelude (lines 1260-1298) computes `calibrated_results`,
    which the rest of the handler never reads, so it is not modelled;
    `results` is rebound at line 1308. -/
def get_context_direct (chunks : List Chunk) (search_results : List (Nat × ℚ))
    (query : String) (min_score : ℚ) : ToolResponse :=
  let results := contextResults chunks search_results min_score
  let abstained : Bool :=
    match results with
    | [] => true
    | r :: _ => decide (r.score < min_score)
  { content_text := if abstained then NO_INFO_TEXT else format_context_response query results,
    meta := { query := query, results_count := results.length, abstained := abstained,
              provenance := results.map (fun r =>
                { chunk_id := r.chunk_id, file := r.file,
                  lines := toString r.start_line ++ "-" ++ toString r.end_line,
                  score := r.score }) } }

/-- Helper for `pySplitWhitespace`: walk the character list keeping the
    current (reversed) word. -/
def pySplitWSAux : List Char → List Char → List String
  | [], w => if w.isEmpty then [] else [String.mk w.reverse]
  | c :: cs, w =>
    if c.isWhitespace then
      if w.isEmpty then pySplitWSAux cs []
      else String.mk w.reverse :: pySplitWSAux cs []
    else pySplitWSAux cs (c :: w)

/-- Python `str.split()` with no argument: split on whitespace runs,
    dropping empty pieces (implemented character-wise so that it reduces
    inside the kernel). -/
def pySplitWhitespace (s : String) : List String := pySplitWSAux s.data []

/-- `str.lower()` (character-wise; the inputs exercised are ASCII). -/
def strLower (s : String) : String := String.mk (s.data.map Char.toLower)

/-- `set(text.lower().split())`, modelled as a deduplicated word list. -/
def wordSet (s : String) : List String := (pySplitWhitespace (strLower s)).dedup

/-- `len(a.intersection(b))` for deduplicated word lists. -/
def interCount (a b : List String) : Nat := (a.filter (fun w => w ∈ b)).length

/-- `len(a.union(b))` for deduplicated word lists. -/
def unionCount (a b : List String) : Nat := (a ++ b.filter (fun w => w ∉ a)).length

/-- Per-chunk similarity added to `total_score` by `_validate_response`
    (source lines 1405-1414): skipped (contributing 0) when the candidate
    is empty or either word set is empty, otherwise word-set Jaccard. -/
def similarityContribution (candidate : String) (chunk_text : String) : ℚ :=
  if candidate = "" then 0
  else
    let candidate_words := wordSet candidate
    let chunk_words := wordSet chunk_text
    if candidate_words ≠ [] ∧ chunk_words ≠ [] then
      if 0 < unionCount candidate_words chunk_words then
        (interCount candidate_words chunk_words : ℚ) / unionCount candidate_words chunk_words
      else 0
    else 0

/-- The `_meta` object of `_validate_response` (source lines 1438-1445);
    the constant `feature`/`status` strings are omitted. -/
structure ValidationMeta where
  evidence_found : Nat
  total_evidence : Nat
  avg_similarity : ℚ
  validation_passed : Bool

/-- Shallow embedding of `MCPServerV6._validate_response` (source lines
    1391-1450). -/
def validate_response (chunks : List Chunk) (candidate : String)
    (evidence_ids : List Nat) : ValidationMeta :=
  let found_evidence := evidence_ids.filterMap (findChunk chunks)
  let total_score := (found_evidence.map (fun c => similarityContribution candidate c.text)).sum
  let avg_similarity := if found_evidence.isEmpty then 0 else total_score / found_evidence.length
  { evidence_found := found_evidence.length,
    total_evidence := evidence_ids.length,
    avg_similarity := avg_similarity,
    validation_passed := decide (0 < found_evidence.length) && decide ((1:ℚ)/10 < avg_similarity) }

/-- Word-set Jaccard similarity as the specification words it: intersection
    over union of the two word sets, taken as 0 when the union is empty. -/
def jaccard (a b : List String) : ℚ :=
  if unionCount a b = 0 then 0 else (interCount a b : ℚ) / unionCount a b

/-- Mean, over the found evidence chunks, of the Jaccard similarity between
    the candidate's lower-cased whitespace-split word set and each chunk's
    word set (0 when nothing was found) — the specification's description
    of `avg_similarity`. -/
def jaccardMean (candidate : String) (found : List Chunk) : ℚ :=
  if found.isEmpty then 0
  else (found.map (fun c => jaccard (wordSet candidate) (wordSet c.text))).sum / found.length

/- ===================================================================
   core/memory/trimming_session.py  —  TrimmingSession
   core/memory/summarizing_session.py  —  SummarizingSession
   =================================================================== -/

/-- One turn dictionary as built by `add_turn` in either policy.
    `metadata` only matters to the analysed claims through its optional
    `entities` key, which is what is modelled (`none` = the key is absent
    or the metadata argument was `None`). -/
structure TurnRecord where
  turn_id : Nat
  timestamp : String
  query : String
  response : String
  entities : Option (List String)
deriving DecidableEq

/-- Entity bookkeeping shared by both policies: append each metadata entity
    not yet in `entities_mentioned`, preserving insertion order. -/
def extendEntities (mentioned : List String) (entities : Option (List String)) : List String :=
  match entities with
  | none => mentioned
  | some es => es.foldl (fun acc e => if e ∈ acc then acc else acc ++ [e]) mentioned

/-- In-memory state of `TrimmingSession`. -/
structure TrimmingSession where
  session_id : String
  max_turns : Nat
  session_type : String
  turns : List TurnRecord
  created_at : String
  entities_mentioned : List String
deriving DecidableEq

/-- `TrimmingSession.__init__`. -/
def TrimmingSession.init (session_id : String) (max_turns : Nat) (session_type : String)
    (created_at : String) : TrimmingSession :=
  { session_id := session_id, max_turns := max_turns, session_type := session_type,
    turns := [], created_at := created_at, entities_mentioned := [] }

/-- The `turn_id` value `add_turn` assigns next (source line 57:
    `len(self.turns) + 1`). -/
def TrimmingSession.nextTurnId (s : TrimmingSession) : Nat := s.turns.length + 1

/-- `TrimmingSession.add_turn` (source lines 47-77): append the turn,
    extend the mentioned entities, then drop the oldest turn (`pop(0)`)
    when the window exceeds `max_turns`. -/
def TrimmingSession.add_turn (s : TrimmingSession) (query response : String)
    (metadata : Option (List String)) (now : String) : TrimmingSession :=
  let turn : TurnRecord :=
    { turn_id := s.nextTurnId, timestamp := now, query := query,
      response := response, entities := metadata }
  let turns1 := s.turns ++ [turn]
  let turns2 := if s.max_turns < turns1.length then turns1.tail else turns1
  { s with turns := turns2,
           entities_mentioned := extendEntities s.entities_mentioned metadata }

/-- The dictionary produced by `TrimmingSession.to_dict` (source lines
    164-179).  `to_dict` emits every key, so the `.get` defaults of
    `from_dict` are never exercised on a round trip and the dictionary is
    modelled with all fields present. -/
structure TrimmingSessionData where
  session_id : String
  session_type : String
  max_turns : Nat
  created_at : String
  turn_count : Nat
  entities_mentioned : List String
  turns : List TurnRecord

def TrimmingSession.to_dict (s : TrimmingSession) : TrimmingSessionData :=
  { session_id := s.session_id, session_type := s.session_type, max_turns := s.max_turns,
    created_at := s.created_at, turn_count := s.turns.length,
    entities_mentioned := s.entities_mentioned, turns := s.turns }

/-- `TrimmingSession.from_dict` (source lines 181-202).  `now` is the
    timestamp the constructor would record; it is overwritten by the
    serialised `created_at`. -/
def TrimmingSession.from_dict (now : String) (d : TrimmingSessionData) : TrimmingSession :=
  let s := TrimmingSession.init d.session_id d.max_turns d.session_type now
  { s with created_at := d.created_at, entities_mentioned := d.entities_mentioned,
           turns := d.turns }

/-- In-memory state of `SummarizingSession`.  The summariser is carried as
    a function field, mirroring `self.summarizer`. -/
structure SummarizingSession where
  session_id : String
  keep_last_n_turns : Nat
  context_limit : Nat
  session_type : String
  summarizer : List TurnRecord → String
  summary : String
  summary_turn_count : Nat
  recent_turns : List TurnRecord
  created_at : String
  last_summarized_at : Option String
  entities_mentioned : List String

/-- `SummarizingSession.__init__`. -/
def SummarizingSession.init (session_id : String) (keep_last_n_turns context_limit : Nat)
    (session_type : String) (summarizer : List TurnRecord → String)
    (created_at : String) : SummarizingSession :=
  { session_id := session_id, keep_last_n_turns := keep_last_n_turns,
    context_limit := context_limit, session_type := session_type,
    summarizer := summarizer, summary := "", summary_turn_count := 0,
    recent_turns := [], created_at := created_at, last_summarized_at := none,
    entities_mentioned := [] }

/-- Python slice `l[:-k]` for a non-negative `k` (note `l[:-0] = l[:0] = []`). -/
def pySliceUptoNeg (l : List TurnRecord) (k : Nat) : List TurnRecord :=
  if k = 0 then [] else l.take (l.length - k)

/-- Python slice `l[-k:]` for a non-negative `k` (note `l[-0:] = l[0:] = l`). -/
def pySliceFromNeg (l : List TurnRecord) (k : Nat) : List TurnRecord :=
  if k = 0 then l else l.drop (l.length - k)

/-- `SummarizingSession._trigger_summarization` (source lines 99-125). -/
def SummarizingSession.trigger_summarization (s : SummarizingSession)
    (now : String) : SummarizingSession :=
  if s.recent_turns.length ≤ s.keep_last_n_turns then s
  else
    let turns_to_summarize := pySliceUptoNeg s.recent_turns s.keep_last_n_turns
    let turns_to_keep := pySliceFromNeg s.recent_turns s.keep_last_n_turns
    let new_summary_part := s.summarizer turns_to_summarize
    { s with
      summary := if s.summary ≠ "" then
          s.summary ++ "\n\n--- Additional Context ---\n" ++ new_summary_part
        else new_summary_part,
      summary_turn_count := s.summary_turn_count + turns_to_summarize.length,
      recent_turns := turns_to_keep,
      last_summarized_at := some now }

/-- The `turn_id` value `add_turn` assigns next (source line 75:
    `self.summary_turn_count + len(self.recent_turns) + 1`). -/
def SummarizingSession.nextTurnId (s : SummarizingSession) : Nat :=
  s.summary_turn_count + s.recent_turns.length + 1

/-- Total number of turns the session has absorbed (summarised plus
    recent). -/
def SummarizingSession.totalTurnCount (s : SummarizingSession) : Nat :=
  s.summary_turn_count + s.recent_turns.length

/-- `SummarizingSession.add_turn` (source lines 65-97). -/
def SummarizingSession.add_turn (s : SummarizingSession) (query response : String)
    (metadata : Option (List String)) (now : String) : SummarizingSession :=
  let turn : TurnRecord :=
    { turn_id := s.nextTurnId, timestamp := now, query := query,
      response := response, entities := metadata }
  let s1 := { s with recent_turns := s.recent_turns ++ [turn],
                     entities_mentioned := extendEntities s.entities_mentioned metadata }
  if s.context_limit < s1.recent_turns.length then s1.trigger_summarization now else s1

/-- The dictionary produced by `SummarizingSession.to_dict` (source lines
    243-261). -/
structure SummarizingSessionData where
  session_id : String
  session_type : String
  keep_last_n_turns : Nat
  context_limit : Nat
  created_at : String
  last_summarized_at : Option String
  summary : String
  summary_turn_count : Nat
  recent_turns : List TurnRecord
  entities_mentioned : List String

def SummarizingSession.to_dict (s : SummarizingSession) : SummarizingSessionData :=
  { session_id := s.session_id, session_type := s.session_type,
    keep_last_n_turns := s.keep_last_n_turns, context_limit := s.context_limit,
    created_at := s.created_at, last_summarized_at := s.last_summarized_at,
    summary := s.summary, summary_turn_count := s.summary_turn_count,
    recent_turns := s.recent_turns, entities_mentioned := s.entities_mentioned }

/-- `SummarizingSession.from_dict` (source lines 263-288); the constructor
    installs `default_summarizer`, passed here as `default_summ`. -/
def SummarizingSession.from_dict (default_summ : List TurnRecord → String) (now : String)
    (d : SummarizingSessionData) : SummarizingSession :=
  let s := SummarizingSession.init d.session_id d.keep_last_n_turns d.context_limit
    d.session_type default_summ now
  { s with created_at := d.created_at, last_summarized_at := d.last_summarized_at,
           summary := d.summary, summary_turn_count := d.summary_turn_count,
           recent_turns := d.recent_turns, entities_mentioned := d.entities_mentioned }

/-- Turn ids assigned along a sequence of `add_turn` calls on the sliding
    (trimming) policy. -/
def trimIds (s : TrimmingSession) : List (String × String) → List Nat
  | [] => []
  | (q, r) :: rest => s.nextTurnId :: trimIds (s.add_turn q r none "") rest

/-- Turn ids assigned along a sequence of `add_turn` calls on the
    summarising policy. -/
def sumIds (s : SummarizingSession) : List (String × String) → List Nat
  | [] => []
  | (q, r) :: rest => s.nextTurnId :: sumIds (s.add_turn q r none "") rest

end MCPHub

/- ===================== audit helper lemmas ===================== -/

theorem MCPHub.auditStatus_trusted (s : ℚ) (c : List String)
    (h : MCPHub.auditStatus s c = "trusted") : c = [] := by
  unfold MCPHub.auditStatus at h
  split at h
  · simp at h
  · split at h
    · simp at h
    · rename_i hnot
      rcases not_or.mp hnot with ⟨_, h2⟩
      simpa using h2

theorem MCPHub.auditStatus_halluc (s : ℚ) (c : List String)
    (h : MCPHub.auditStatus s c = "hallucination_detected") : s < (2:ℚ)/5 := by
  unfold MCPHub.auditStatus at h
  split at h
  · assumption
  · split at h <;> simp at h

/-- The three C2 invariants, packaged as a predicate on audit results. -/
def MCPHub.auditInvariants (r : MCPHub.AuditResult) : Prop :=
  (0 ≤ r.score ∧ r.score ≤ 1) ∧
  (r.status = "trusted" → r.contradictions = none ∨ r.contradictions = some []) ∧
  (r.status = "hallucination_detected" → r.score < (2:ℚ)/5)

theorem MCPHub.auditMain_invariants (cos : MCPHub.Vec → MCPHub.Vec → ℚ)
    (pv : MCPHub.Vec) (ta : List (ℚ × MCPHub.TruthFact)) (d : Nat) :
    MCPHub.auditInvariants (MCPHub.auditMain cos pv ta d) := by
  refine ⟨⟨le_max_left 0 _, max_le (by norm_num) (min_le_left 1 _)⟩, ?_, ?_⟩
  · intro htr
    exact Or.inr (congrArg some (MCPHub.auditStatus_trusted _ _ htr))
  · intro hh
    exact MCPHub.auditStatus_halluc _ _ hh

/- ===================== Claim theorems: audit invariants ===================== -/

/-- C2: every result of the world-model audit satisfies `0 ≤ score ≤ 1`;
    when the status is `trusted` the contradictions list (if that key is
    present at all) is empty; when the status is `hallucination_detected`
    the score is strictly below 0.4. -/
theorem audit_result_invariants (cos : MCPHub.Vec → MCPHub.Vec → ℚ)
    (embed : String → MCPHub.Vec) (facts : List MCPHub.TruthFact) (query proposal : String) :
    MCPHub.auditInvariants (MCPHub.audit_proposal cos embed facts query proposal) := by
  unfold MCPHub.audit_proposal
  cases hfe : facts.isEmpty
  · rw [if_neg (by simp)]
    split
    · exact ⟨⟨by norm_num, by norm_num⟩, fun h => absurd h (by decide),
        fun h => absurd h (by decide)⟩
    · exact MCPHub.auditMain_invariants cos (embed proposal) _ _
  · rw [if_pos rfl]
    exact ⟨⟨by norm_num, by norm_num⟩, fun h => absurd h (by decide),
      fun h => absurd h (by decide)⟩

/-- C7 counterexample: on an empty truth-fact corpus the early return of
    `audit_proposal` (source lines 85-90) carries no `anchors` and no
    `contradictions` key at all, so the claim that the result has an empty
    anchors list and an empty contradictions list fails there. -/
theorem audit_empty_corpus_counterexample :
    (MCPHub.audit_proposal (fun _ _ => 0) (fun _ => []) [] "q" "p").anchors ≠ some [] ∧
    (MCPHub.audit_proposal (fun _ _ => 0) (fun _ => []) [] "q" "p").contradictions ≠ some [] := by
  constructor <;> simp [MCPHub.audit_proposal]

theorem MCPHub.topAnchors_eq_nil (cos : MCPHub.Vec → MCPHub.Vec → ℚ) (qv : MCPHub.Vec)
    (facts : List MCPHub.TruthFact)
    (hlow : ∀ f ∈ facts, cos qv f.vector ≤ (1:ℚ)/2) :
    MCPHub.topAnchors cos qv facts = [] := by
  unfold MCPHub.topAnchors
  rw [List.filter_eq_nil_iff]
  intro a ha
  have hmem : a ∈ (facts.map (fun fact => (cos qv fact.vector, fact))).insertionSort
      (fun a b => b.1 ≤ a.1) := List.mem_of_mem_take ha
  rw [List.mem_insertionSort] at hmem
  rcases List.mem_map.mp hmem with ⟨f, hf, rfl⟩
  simpa using not_lt.mpr (hlow f hf)

/-- C7 amended: when no truth fact attains cosine strictly above 0.5 with
    the embedded query, `audit_proposal` returns score 1.0 and status
    `unverified`; if the corpus is non-empty the result carries empty
    `anchors` and `contradictions` lists, while on an empty corpus those
    two keys are absent from the returned dictionary. -/
theorem audit_no_anchor_unverified (cos : MCPHub.Vec → MCPHub.Vec → ℚ)
    (embed : String → MCPHub.Vec) (facts : List MCPHub.TruthFact) (query proposal : String)
    (hlow : ∀ f ∈ facts, cos (embed query) f.vector ≤ (1:ℚ)/2) :
    (facts ≠ [] →
      MCPHub.audit_proposal cos embed facts query proposal =
        { score := 1, alignment := none, status := "unverified",
          anchors := some [], contradictions := some [],
          message := "No project context available for audit." }) ∧
    (facts = [] →
      MCPHub.audit_proposal cos embed facts query proposal =
        { score := 1, alignment := none, status := "unverified",
          anchors := none, contradictions := none,
          message := "No project context available for audit." }) := by
  constructor
  · intro hne
    unfold MCPHub.audit_proposal
    rw [if_neg (by simpa using hne), MCPHub.topAnchors_eq_nil cos (embed query) facts hlow]
  · intro he
    subst he
    rfl

theorem audit_no_anchor_unverified_witness :
    MCPHub.audit_proposal (fun _ _ => 0) (fun _ => [1])
      [{ source := "rules.md", content := "c", vector := [1] }] "q" "p" =
      { score := 1, alignment := none, status := "unverified",
        anchors := some [], contradictions := some [],
        message := "No project context available for audit." } :=
  (audit_no_anchor_unverified (fun _ _ => 0) (fun _ => [1])
    [{ source := "rules.md", content := "c", vector := [1] }] "q" "p"
    (by intro f _; norm_num)).1 (by simp)

/- ===================== retrieval and validation lemmas ===================== -/

theorem MCPHub.contextResults_score_ge (chunks : List MCPHub.Chunk)
    (s : List (Nat × ℚ)) (m : ℚ) :
    ∀ x ∈ MCPHub.contextResults chunks s m, m ≤ x.score := by
  intro x hx
  rcases List.mem_filterMap.mp hx with ⟨p, _, hfp⟩
  by_cases hlt : p.2 < m
  · rw [if_pos hlt] at hfp
    exact absurd hfp (by simp)
  · rw [if_neg hlt] at hfp
    rcases Option.map_eq_some'.mp hfp with ⟨c, _, hxc⟩
    rw [← hxc]
    exact not_lt.mp hlt

theorem MCPHub.contextResults_nil_of_low (chunks : List MCPHub.Chunk)
    (s : List (Nat × ℚ)) (m : ℚ) (h : ∀ p ∈ s, p.2 < m) :
    MCPHub.contextResults chunks s m = [] := by
  unfold MCPHub.contextResults
  rw [List.filterMap_eq_nil_iff]
  intro p hp
  rw [if_pos (h p hp)]

theorem MCPHub.contextResults_nil_of_empty_store (s : List (Nat × ℚ)) (m : ℚ) :
    MCPHub.contextResults [] s m = [] := by
  unfold MCPHub.contextResults
  rw [List.filterMap_eq_nil_iff]
  intro p _
  by_cases hlt : p.2 < m
  · rw [if_pos hlt]
  · rw [if_neg hlt]
    rfl

/-- C1: when every retrieved score falls below `min_score` — in particular
    whenever the chunk store is empty — `_get_context_direct` returns a
    success-shaped response whose content text is exactly the fixed
    abstention string, with `abstained = true` and `results_count = 0`;
    as soon as one retrieved pair clears `min_score` and resolves to a
    stored chunk, `abstained = false`. -/
theorem get_context_abstention (chunks : List MCPHub.Chunk)
    (search_results : List (Nat × ℚ)) (query : String) (min_score : ℚ) :
    ((∀ p ∈ search_results, p.2 < min_score) →
      (MCPHub.get_context_direct chunks search_results query min_score).content_text
          = MCPHub.NO_INFO_TEXT ∧
      (MCPHub.get_context_direct chunks search_results query min_score).meta.abstained = true ∧
      (MCPHub.get_context_direct chunks search_results query min_score).meta.results_count = 0) ∧
    (chunks = [] →
      (MCPHub.get_context_direct chunks search_results query min_score).content_text
          = MCPHub.NO_INFO_TEXT ∧
      (MCPHub.get_context_direct chunks search_results query min_score).meta.abstained = true ∧
      (MCPHub.get_context_direct chunks search_results query min_score).meta.results_count = 0) ∧
    ((∃ p ∈ search_results, min_score ≤ p.2 ∧ (MCPHub.findChunk chunks p.1).isSome) →
      (MCPHub.get_context_direct chunks search_results query min_score).meta.abstained
          = false) := by
  refine ⟨?_, ?_, ?_⟩
  · intro hlow
    have h0 := MCPHub.contextResults_nil_of_low chunks search_results min_score hlow
    simp [MCPHub.get_context_direct, h0]
  · intro hchunks
    subst hchunks
    have h0 := MCPHub.contextResults_nil_of_empty_store search_results min_score
    simp [MCPHub.get_context_direct, h0]
  · intro hhit
    rcases hhit with ⟨p, hp, hge, hsome⟩
    rcases Option.isSome_iff_exists.mp hsome with ⟨c, hc⟩
    have hmem : ({ chunk_id := p.1, file := c.file_path, start_line := c.start_line,
                   end_line := c.end_line, text := c.text, score := p.2,
                   sect := c.sect } : MCPHub.ContextResult)
        ∈ MCPHub.contextResults chunks search_results min_score := by
      apply List.mem_filterMap.mpr
      refine ⟨p, hp, ?_⟩
      rw [if_neg (not_lt.mpr hge), hc]
      rfl
    cases hres : MCPHub.contextResults chunks search_results min_score with
    | nil => rw [hres] at hmem; exact absurd hmem (List.not_mem_nil _)
    | cons r rest =>
      have hr : min_score ≤ r.score :=
        MCPHub.contextResults_score_ge chunks search_results min_score r
          (by rw [hres]; exact List.mem_cons_self r rest)
      simp [MCPHub.get_context_direct, hres, not_lt.mpr hr]

theorem get_context_abstention_witness :
    ((MCPHub.get_context_direct
        [{ chunk_id := 0, file_path := "a.py", start_line := 1, end_line := 2,
           text := "def login", sect := "s" }]
        [(0, (1:ℚ)/4)] "q" ((1:ℚ)/2)).content_text = MCPHub.NO_INFO_TEXT ∧
      (MCPHub.get_context_direct
        [{ chunk_id := 0, file_path := "a.py", start_line := 1, end_line := 2,
           text := "def login", sect := "s" }]
        [(0, (1:ℚ)/4)] "q" ((1:ℚ)/2)).meta.abstained = true) ∧
    (MCPHub.get_context_direct
        [{ chunk_id := 0, file_path := "a.py", start_line := 1, end_line := 2,
           text := "def login", sect := "s" }]
        [(0, (9:ℚ)/10)] "q" ((1:ℚ)/2)).meta.abstained = false := by
  constructor
  · have h := (get_context_abstention
      [{ chunk_id := 0, file_path := "a.py", start_line := 1, end_line := 2,
         text := "def login", sect := "s" }]
      [(0, (1:ℚ)/4)] "q" ((1:ℚ)/2)).1 (by intro p hp; simp at hp; rw [hp]; norm_num)
    exact ⟨h.1, h.2.1⟩
  · exact (get_context_abstention
      [{ chunk_id := 0, file_path := "a.py", start_line := 1, end_line := 2,
         text := "def login", sect := "s" }]
      [(0, (9:ℚ)/10)] "q" ((1:ℚ)/2)).2.2
      ⟨(0, (9:ℚ)/10), by simp, by norm_num, by decide⟩

/- ===================== validation lemmas ===================== -/

theorem MCPHub.wordSet_empty : MCPHub.wordSet "" = [] := by decide

theorem MCPHub.jaccard_nil_left (b : List String) : MCPHub.jaccard [] b = 0 := by
  unfold MCPHub.jaccard MCPHub.interCount
  split <;> simp

theorem MCPHub.jaccard_nil_right (a : List String) : MCPHub.jaccard a [] = 0 := by
  unfold MCPHub.jaccard MCPHub.interCount
  split <;> simp

theorem MCPHub.similarityContribution_eq_jaccard (candidate chunk_text : String) :
    MCPHub.similarityContribution candidate chunk_text
      = MCPHub.jaccard (MCPHub.wordSet candidate) (MCPHub.wordSet chunk_text) := by
  unfold MCPHub.similarityContribution
  by_cases hc : candidate = ""
  · rw [if_pos hc, hc, MCPHub.wordSet_empty, MCPHub.jaccard_nil_left]
  · rw [if_neg hc]
    by_cases hb : MCPHub.wordSet candidate ≠ [] ∧ MCPHub.wordSet chunk_text ≠ []
    · rw [if_pos hb]
      have hu : MCPHub.unionCount (MCPHub.wordSet candidate) (MCPHub.wordSet chunk_text) ≠ 0 := by
        unfold MCPHub.unionCount
        simp only [List.length_append, ne_eq, Nat.add_eq_zero, List.length_eq_zero, not_and]
        intro hca
        exact absurd hca hb.1
      rw [if_pos (Nat.pos_of_ne_zero hu)]
      unfold MCPHub.jaccard
      rw [if_neg hu]
    · rw [if_neg hb]
      rcases Decidable.not_and_iff_or_not.mp hb with h | h
      · rw [not_ne_iff.mp h, MCPHub.jaccard_nil_left]
      · rw [not_ne_iff.mp h, MCPHub.jaccard_nil_right]

/-- C6: `avg_similarity` of `_validate_response` equals the mean word-set
    Jaccard similarity between the candidate text and the evidence chunks
    actually found in the store, and `validation_passed` holds exactly when
    at least one evidence chunk was found and the average similarity
    exceeds 0.1. -/
theorem validate_response_spec (chunks : List MCPHub.Chunk) (candidate : String)
    (evidence_ids : List Nat) :
    (MCPHub.validate_response chunks candidate evidence_ids).avg_similarity
      = MCPHub.jaccardMean candidate (evidence_ids.filterMap (MCPHub.findChunk chunks)) ∧
    ((MCPHub.validate_response chunks candidate evidence_ids).validation_passed = true ↔
      0 < (MCPHub.validate_response chunks candidate evidence_ids).evidence_found ∧
      (1:ℚ)/10 < (MCPHub.validate_response chunks candidate evidence_ids).avg_similarity) := by
  constructor
  · simp only [MCPHub.validate_response, MCPHub.jaccardMean,
      MCPHub.similarityContribution_eq_jaccard]
  · simp only [MCPHub.validate_response, Bool.and_eq_true, decide_eq_true_eq]

/- ===================== session policy lemmas ===================== -/

theorem MCPHub.pySlice_length_sum (l : List MCPHub.TurnRecord) (k : Nat) :
    (MCPHub.pySliceUptoNeg l k).length + (MCPHub.pySliceFromNeg l k).length = l.length := by
  unfold MCPHub.pySliceUptoNeg MCPHub.pySliceFromNeg
  by_cases hk : k = 0
  · simp [hk]
  · rw [if_neg hk, if_neg hk]
    simp only [List.length_take, List.length_drop]
    omega

theorem MCPHub.totalTurnCount_trigger (s : MCPHub.SummarizingSession) (now : String) :
    (s.trigger_summarization now).totalTurnCount = s.totalTurnCount := by
  unfold MCPHub.SummarizingSession.trigger_summarization
  split
  · rfl
  · unfold MCPHub.SummarizingSession.totalTurnCount
    simp only
    have := MCPHub.pySlice_length_sum s.recent_turns s.keep_last_n_turns
    omega

theorem MCPHub.totalTurnCount_add (s : MCPHub.SummarizingSession) (q r : String)
    (m : Option (List String)) (now : String) :
    (s.add_turn q r m now).totalTurnCount = s.totalTurnCount + 1 := by
  simp only [MCPHub.SummarizingSession.add_turn]
  split
  · rw [MCPHub.totalTurnCount_trigger]
    unfold MCPHub.SummarizingSession.totalTurnCount
    simp only [List.length_append, List.length_cons, List.length_nil]
    omega
  · unfold MCPHub.SummarizingSession.totalTurnCount
    simp only [List.length_append, List.length_cons, List.length_nil]
    omega

theorem MCPHub.sumIds_eq_range' (items : List (String × String)) :
    ∀ s : MCPHub.SummarizingSession,
      MCPHub.sumIds s items = List.range' (s.totalTurnCount + 1) items.length := by
  induction items with
  | nil => intro s; rfl
  | cons it rest ih =>
    intro s
    obtain ⟨q, r⟩ := it
    show s.nextTurnId :: MCPHub.sumIds (s.add_turn q r none "") rest = _
    rw [ih (s.add_turn q r none ""), MCPHub.totalTurnCount_add]
    rfl

theorem MCPHub.trim_add_length (s : MCPHub.TrimmingSession) (q r : String)
    (m : Option (List String)) (now : String) (h : s.turns.length ≤ s.max_turns) :
    (s.add_turn q r m now).turns.length = min (s.turns.length + 1) s.max_turns := by
  simp only [MCPHub.TrimmingSession.add_turn]
  split
  · rename_i hgt
    simp only [List.length_append, List.length_cons, List.length_nil] at hgt
    simp only [List.length_tail, List.length_append, List.length_cons, List.length_nil]
    omega
  · rename_i hle
    simp only [List.length_append, List.length_cons, List.length_nil] at *
    omega

theorem MCPHub.trimIds_formula (items : List (String × String)) :
    ∀ s : MCPHub.TrimmingSession, s.turns.length ≤ s.max_turns →
      MCPHub.trimIds s items
        = (List.range items.length).map (fun i => min (s.turns.length + i) s.max_turns + 1) := by
  induction items with
  | nil => intro s _; rfl
  | cons it rest ih =>
    intro s hs
    obtain ⟨q, r⟩ := it
    have hlen := MCPHub.trim_add_length s q r none "" hs
    have hle : (s.add_turn q r none "").turns.length ≤ (s.add_turn q r none "").max_turns := by
      have hmax : (s.add_turn q r none "").max_turns = s.max_turns := rfl
      rw [hlen, hmax]
      omega
    show s.nextTurnId :: MCPHub.trimIds (s.add_turn q r none "") rest = _
    rw [ih (s.add_turn q r none "") hle]
    have hmax : (s.add_turn q r none "").max_turns = s.max_turns := rfl
    rw [hlen, hmax]
    rw [List.length_cons, List.range_succ_eq_map, List.map_cons, List.map_map]
    congr 1
    · show s.turns.length + 1 = min (s.turns.length + 0) s.max_turns + 1
      omega
    · apply List.map_congr_left
      intro i _
      show min (min (s.turns.length + 1) s.max_turns + i) s.max_turns + 1
        = min (s.turns.length + (i + 1)) s.max_turns + 1
      omega

/-- C4 amended: turn ids are strictly increasing for the summarising policy
    (the id assigned after any state is the total absorbed turn count plus
    one, which summarisation preserves); for the sliding-window policy the
    id assigned by the k-th `add_turn` on a fresh session is
    `min (k - 1) max_turns + 1`, so ids increase strictly only until the
    window fills and then repeat `max_turns + 1` forever. -/
theorem turn_id_assignment (items : List (String × String)) (s : MCPHub.SummarizingSession)
    (sid stype ts : String) (max_turns : Nat) :
    MCPHub.sumIds s items = List.range' (s.totalTurnCount + 1) items.length ∧
    List.Pairwise (· < ·) (MCPHub.sumIds s items) ∧
    MCPHub.trimIds (MCPHub.TrimmingSession.init sid max_turns stype ts) items
      = (List.range items.length).map (fun i => min i max_turns + 1) := by
  refine ⟨MCPHub.sumIds_eq_range' items s, ?_, ?_⟩
  · rw [MCPHub.sumIds_eq_range' items s]
    exact List.pairwise_lt_range' _ _
  · rw [MCPHub.trimIds_formula items (MCPHub.TrimmingSession.init sid max_turns stype ts)
      (by simp [MCPHub.TrimmingSession.init])]
    apply List.map_congr_left
    intro i _
    simp [MCPHub.TrimmingSession.init]

/-- C4 counterexample: with a sliding window of two turns, the third and
    fourth `add_turn` both assign turn id 3 (`len(self.turns) + 1` stalls
    once trimming starts), so ids are not strictly increasing. -/
theorem turn_id_counterexample :
    MCPHub.trimIds (MCPHub.TrimmingSession.init "s" 2 "general" "t")
      [("q1", "r1"), ("q2", "r2"), ("q3", "r3"), ("q4", "r4")] = [1, 2, 3, 3] ∧
    ¬ List.Pairwise (· < ·)
      (MCPHub.trimIds (MCPHub.TrimmingSession.init "s" 2 "general" "t")
        [("q1", "r1"), ("q2", "r2"), ("q3", "r3"), ("q4", "r4")]) := by
  constructor
  · rfl
  · intro h
    rw [show MCPHub.trimIds (MCPHub.TrimmingSession.init "s" 2 "general" "t")
        [("q1", "r1"), ("q2", "r2"), ("q3", "r3"), ("q4", "r4")] = [1, 2, 3, 3] from rfl] at h
    simp at h

/-- C9: deserialising a serialised session reproduces, for the sliding
    policy, the same session id, turns (in order) and mentioned entities,
    and additionally for the summarising policy the same summary string,
    summarised turn count and last-summarised timestamp. -/
theorem session_roundtrip (s : MCPHub.TrimmingSession) (z : MCPHub.SummarizingSession)
    (now now2 : String) (default_summ : List MCPHub.TurnRecord → String) :
    (MCPHub.TrimmingSession.from_dict now s.to_dict).session_id = s.session_id ∧
    (MCPHub.TrimmingSession.from_dict now s.to_dict).turns = s.turns ∧
    (MCPHub.TrimmingSession.from_dict now s.to_dict).entities_mentioned
      = s.entities_mentioned ∧
    (MCPHub.SummarizingSession.from_dict default_summ now2 z.to_dict).session_id
      = z.session_id ∧
    (MCPHub.SummarizingSession.from_dict default_summ now2 z.to_dict).recent_turns
      = z.recent_turns ∧
    (MCPHub.SummarizingSession.from_dict default_summ now2 z.to_dict).entities_mentioned
      = z.entities_mentioned ∧
    (MCPHub.SummarizingSession.from_dict default_summ now2 z.to_dict).summary = z.summary ∧
    (MCPHub.SummarizingSession.from_dict default_summ now2 z.to_dict).summary_turn_count
      = z.summary_turn_count ∧
    (MCPHub.SummarizingSession.from_dict default_summ now2 z.to_dict).last_summarized_at
      = z.last_summarized_at :=
  ⟨rfl, rfl, rfl, rfl, rfl, rfl, rfl, rfl, rfl⟩

namespace MCPHub

/- ===================================================================
   core/storage/memory_handler.py  —  MemoryHandler
   =================================================================== -/

/-- Helper for `pyBasename`: walk the characters, restarting the collected
    name after every `/`. -/
def basenameCharsAux : List Char → List Char → List Char
  | [], acc => acc.reverse
  | c :: cs, acc => if c = '/' then basenameCharsAux cs [] else basenameCharsAux cs (c :: acc)

/-- `os.path.basename` on POSIX: everything after the last `/`
    (`p[p.rfind(chr(47)) + 1:]`). -/
def pyBasename (p : String) : String := String.mk (basenameCharsAux p.data [])

/-- Does the string start with `/`? -/
def headIsSlash (s : String) : Bool :=
  match s.data with
  | [] => false
  | c :: _ => c = '/'

/-- Does the string end with `/`? -/
def lastIsSlash (s : String) : Bool :=
  match s.data.getLast? with
  | some c => c = '/'
  | none => false

/-- `os.path.join(a, b)` on POSIX for a single extra component: an absolute
    `b` replaces `a`; otherwise a separator is inserted unless `a` is empty
    or already ends with one. -/
def pyJoin (a b : String) : String :=
  if headIsSlash b then b
  else if a = "" ∨ lastIsSlash a then a ++ b
  else a ++ "/" ++ b

/-- The base directory chosen by `MemoryHandler._get_storage_path` (source
    lines 31-34): the per-session subdirectory when `per_session` is set and
    a truthy `session_id` was given (Python treats `None` and the empty
    string as falsy), otherwise the configured memory directory. -/
def memoryBaseDir (memory_dir : String) (per_session : Bool)
    (session_id : Option String) : String :=
  if per_session then
    match session_id with
    | some s => if s = "" then memory_dir else pyJoin memory_dir s
    | none => memory_dir
  else memory_dir

/-- `MemoryHandler._get_storage_path` (source lines 29-38): join the base
    directory with the basename of the requested `file_path`. -/
def get_storage_path (memory_dir : String) (per_session : Bool)
    (file_path : String) (session_id : Option String) : String :=
  pyJoin (memoryBaseDir memory_dir per_session session_id) (pyBasename file_path)

/-- A path lies directly inside a base directory: it is the base followed by
    a single separator and one component that is a regular file name (not
    empty, not `.`, not `..`, no separator). -/
def liesDirectlyInside (path base : String) : Prop :=
  ∃ name : String, path = base ++ "/" ++ name ∧
    name ≠ "" ∧ name ≠ "." ∧ name ≠ ".." ∧ '/' ∉ name.data

end MCPHub

/- ===================== memory handler lemmas ===================== -/

theorem MCPHub.basenameCharsAux_no_slash (l : List Char) :
    ∀ acc : List Char, '/' ∉ acc → '/' ∉ MCPHub.basenameCharsAux l acc := by
  induction l with
  | nil =>
    intro acc hacc
    unfold MCPHub.basenameCharsAux
    simpa using hacc
  | cons c cs ih =>
    intro acc hacc
    unfold MCPHub.basenameCharsAux
    by_cases hc : c = '/'
    · rw [if_pos hc]
      exact ih [] (by simp)
    · rw [if_neg hc]
      apply ih
      intro hmem
      rcases List.mem_cons.mp hmem with h | h
      · exact hc h.symm
      · exact hacc h

theorem MCPHub.pyBasename_no_slash (p : String) :
    '/' ∉ (MCPHub.pyBasename p).data :=
  MCPHub.basenameCharsAux_no_slash p.data [] (by simp)

theorem MCPHub.string_append_left_cancel (a b c : String) (h : a ++ b = a ++ c) : b = c := by
  cases a with
  | mk da =>
    cases b with
    | mk db =>
      cases c with
      | mk dc =>
        have hdata := congrArg String.data h
        simp only [String.data_append] at hdata
        exact congrArg String.mk (List.append_cancel_left hdata)

/-- C8 counterexample: `file_path = "x/.."` has basename `".."`, so the
    computed storage path is `data/memories/..` — the parent of the memory
    directory, not a path directly inside it. -/
theorem memory_path_traversal_counterexample :
    MCPHub.get_storage_path "data/memories" false "x/.." none = "data/memories/.." ∧
    ¬ MCPHub.liesDirectlyInside "data/memories/.." "data/memories" := by
  constructor
  · rfl
  · rintro ⟨name, heq, -, -, hdd, -⟩
    apply hdd
    have h2 : "data/memories" ++ "/" ++ ".." = "data/memories" ++ "/" ++ name := by
      rw [← heq]
      rfl
    have h3 : "/" ++ ".." = "/" ++ name :=
      MCPHub.string_append_left_cancel "data/memories" _ _
        (by rw [String.append_assoc, String.append_assoc] at h2; exact h2)
    exact (MCPHub.string_append_left_cancel "/" _ _ h3).symm

/-- C8 amended: `file_path` is always reduced to its POSIX basename before
    any filesystem access, and whenever that basename is a regular name
    (not empty, not `.`, not `..`) the accessed path lies directly inside
    the effective base directory (the configured memory directory or its
    per-session subdirectory).  The basenames `..`, `.` and the empty
    string instead denote the parent of the base directory or the base
    directory itself. -/
theorem memory_path_sanitisation (memory_dir : String) (per_session : Bool)
    (file_path : String) (session_id : Option String)
    (hne : MCPHub.memoryBaseDir memory_dir per_session session_id ≠ "")
    (hsl : MCPHub.lastIsSlash (MCPHub.memoryBaseDir memory_dir per_session session_id) = false)
    (hname : MCPHub.pyBasename file_path ≠ "" ∧ MCPHub.pyBasename file_path ≠ "." ∧
      MCPHub.pyBasename file_path ≠ "..") :
    MCPHub.liesDirectlyInside
      (MCPHub.get_storage_path memory_dir per_session file_path session_id)
      (MCPHub.memoryBaseDir memory_dir per_session session_id) := by
  refine ⟨MCPHub.pyBasename file_path, ?_, hname.1, hname.2.1, hname.2.2,
    MCPHub.pyBasename_no_slash file_path⟩
  unfold MCPHub.get_storage_path MCPHub.pyJoin
  have hhead : MCPHub.headIsSlash (MCPHub.pyBasename file_path) = false := by
    have hns := MCPHub.pyBasename_no_slash file_path
    unfold MCPHub.headIsSlash
    cases hD : (MCPHub.pyBasename file_path).data with
    | nil => rfl
    | cons c cs =>
      rw [hD] at hns
      simp only [List.mem_cons, not_or] at hns
      exact decide_eq_false fun hc => hns.1 hc.symm
  rw [if_neg (by simp [hhead]), if_neg (by simp [hne, hsl])]

theorem memory_path_sanitisation_witness :
    MCPHub.liesDirectlyInside
      (MCPHub.get_storage_path "data/memories" false "../../etc/passwd" none)
      (MCPHub.memoryBaseDir "data/memories" false none) :=
  memory_path_sanitisation "data/memories" false "../../etc/passwd" none
    (by decide) (by decide) ⟨by decide, by decide, by decide⟩

namespace MCPHub

/- ===================================================================
   core/storage/session_storage.py  —  SessionStorage
   core/memory/session_manager.py  —  SessionManager
   =================================================================== -/

/-- One JSONL log line.  Lines written by the auto-save path of
    `add_turn_to_session` carry no `turn_id` key (`none`); lines written by
    `save_session` are serialised `TurnRecord`s and do. -/
structure TurnData where
  turn_id : Option Nat
  timestamp : String
  query : String
  response : String
  entities : Option (List String)
deriving DecidableEq

/-- The sidecar metadata dictionary.  Keys written only by some code paths
    are `Option` fields (`none` = key absent). -/
structure SessionMetadata where
  session_id : String
  session_type : Option String
  strategy : Option String
  created_at : String
  last_updated : Option String
  turn_count : Option Nat
  status : Option String
  last_saved : Option String
  closed_at : Option String
deriving DecidableEq

/-- Association-list lookup with Python-dict semantics. -/
def dictLookup {α : Type} (l : List (String × α)) (k : String) : Option α :=
  match l.find? (fun p => p.1 == k) with
  | some p => some p.2
  | none => none

/-- Python-dict assignment: replace the entry in place, or append. -/
def dictInsert {α : Type} (l : List (String × α)) (k : String) (v : α) :
    List (String × α) :=
  if (l.find? (fun p => p.1 == k)).isSome then
    l.map (fun p => if p.1 == k then (k, v) else p)
  else l ++ [(k, v)]

/-- Python-dict deletion. -/
def dictRemove {α : Type} (l : List (String × α)) (k : String) : List (String × α) :=
  l.filter (fun p => p.1 != k)

/-- On-disk state of `SessionStorage`: per-session JSONL logs and metadata
    sidecars. -/
structure StorageState where
  logs : List (String × List TurnData)
  metas : List (String × SessionMetadata)

/-- `SessionStorage.save_metadata` (source lines 105-122): overwrite the
    sidecar file. -/
def saveMetadata (st : StorageState) (sid : String) (m : SessionMetadata) : StorageState :=
  { st with metas := dictInsert st.metas sid m }

/-- `SessionStorage._update_metadata` (source lines 146-163): create the
    sidecar with `turn_count = 1`, or bump `turn_count` and `last_updated`. -/
def updateMetadata (st : StorageState) (sid : String) (now : String) : StorageState :=
  match dictLookup st.metas sid with
  | none =>
    saveMetadata st sid
      { session_id := sid, session_type := none, strategy := none, created_at := now,
        last_updated := some now, turn_count := some 1, status := none,
        last_saved := none, closed_at := none }
  | some m =>
    saveMetadata st sid
      { m with last_updated := some now, turn_count := some (m.turn_count.getD 0 + 1) }

/-- `SessionStorage.save_turn` (source lines 48-73): append one JSONL line,
    then update the sidecar metadata.  (Both callers already supply a
    timestamp, so the `if timestamp not in turn_data` branch is inert.) -/
def save_turn (st : StorageState) (sid : String) (td : TurnData) (now : String) :
    StorageState :=
  let st1 := { st with
    logs := dictInsert st.logs sid ((dictLookup st.logs sid).getD [] ++ [td]) }
  updateMetadata st1 sid now

/-- A session under either policy, as held in `active_sessions`. -/
inductive Session where
  | trimming : TrimmingSession → Session
  | summarizing : SummarizingSession → Session

/-- `session.add_turn(...)` through the policy dispatch. -/
def Session.addTurn (s : Session) (q r : String) (m : Option (List String))
    (now : String) : Session :=
  match s with
  | .trimming t => .trimming (t.add_turn q r m now)
  | .summarizing z => .summarizing (z.add_turn q r m now)

/-- `session.to_dict().get('turns', [])` as read by `save_session` (source
    line 191 of `session_manager.py`): the trimming policy's dictionary has
    a `turns` key; the summarising policy's dictionary has `recent_turns`
    but no `turns`, so the `.get` default `[]` applies. -/
def Session.dataTurns (s : Session) : List TurnRecord :=
  match s with
  | .trimming t => t.turns
  | .summarizing _ => []

/-- `SessionStrategy` of the manager. -/
inductive Strategy where
  | trimming
  | summarizing
deriving DecidableEq

/-- State of a `SessionManager` together with its storage. -/
structure ManagerState where
  active_sessions : List (String × Session)
  default_strategy : Strategy
  auto_save : Bool
  storage : StorageState

/-- `SessionManager.create_session` (source lines 69-122): an already
    active `session_id` short-circuits, returning the existing session and
    leaving every piece of state (and the metadata store) untouched;
    otherwise a fresh session is built per strategy (constructor defaults
    `max_turns = 8`, `keep_last_n_turns = 3`, `context_limit = 10`),
    registered, and its sidecar metadata written. -/
def create_session (m : ManagerState) (sid session_type : String)
    (strategy : Option Strategy) (default_summ : List TurnRecord → String)
    (now : String) : Session × ManagerState :=
  match dictLookup m.active_sessions sid with
  | some existing => (existing, m)
  | none =>
    let strat := strategy.getD m.default_strategy
    let session : Session :=
      match strat with
      | .trimming => .trimming (TrimmingSession.init sid 8 session_type now)
      | .summarizing =>
        .summarizing (SummarizingSession.init sid 3 10 session_type default_summ now)
    let meta : SessionMetadata :=
      { session_id := sid, session_type := some session_type,
        strategy := some (match strat with
          | .trimming => "trimming"
          | .summarizing => "summarizing"),
        created_at := now, last_updated := none, turn_count := none,
        status := some "active", last_saved := none, closed_at := none }
    (session,
      { m with active_sessions := dictInsert m.active_sessions sid session,
               storage := saveMetadata m.storage sid meta })

/-- `SessionManager.load_session` (source lines 124-171): an active session
    is returned as is; otherwise the session is rebuilt from metadata and
    the log is replayed through `add_turn` (the replay stamps fresh
    timestamps, as the source does with `datetime.now()`). -/
def load_session (m : ManagerState) (sid : String)
    (default_summ : List TurnRecord → String) (now : String) :
    ManagerState × Option Session :=
  match dictLookup m.active_sessions sid with
  | some s => (m, some s)
  | none =>
    match dictLookup m.storage.metas sid with
    | none => (m, none)
    | some meta =>
      let turns := (dictLookup m.storage.logs sid).getD []
      let base : Session :=
        if (meta.strategy.getD "trimming") = "summarizing" then
          .summarizing (SummarizingSession.init sid 3 10
            (meta.session_type.getD "general") default_summ now)
        else
          .trimming (TrimmingSession.init sid 8 (meta.session_type.getD "general") now)
      let replayed := turns.foldl
        (fun s td => s.addTurn td.query td.response td.entities now) base
      ({ m with active_sessions := dictInsert m.active_sessions sid replayed },
        some replayed)

/-- `SessionManager.save_session` (source lines 173-202): re-append every
    turn of `session.to_dict()['turns']` to the JSONL log, then overwrite
    the metadata's `turn_count` with the in-memory turn count and stamp
    `last_saved`. -/
def save_session (m : ManagerState) (sid : String) (now : String) :
    Bool × ManagerState :=
  match dictLookup m.active_sessions sid with
  | none => (false, m)
  | some sess =>
    let turns := sess.dataTurns
    let st1 := turns.foldl
      (fun st t => save_turn st sid
        { turn_id := some t.turn_id, timestamp := t.timestamp, query := t.query,
          response := t.response, entities := t.entities } now)
      m.storage
    let st2 :=
      match dictLookup st1.metas sid with
      | some meta =>
        saveMetadata st1 sid { meta with last_saved := some now,
                                         turn_count := some turns.length }
      | none => st1
    (true, { m with storage := st2 })

/-- `SessionManager.add_turn_to_session` (source lines 204-242): load the
    session, add the turn in memory, and (with `auto_save`) append a log
    line `{query, response, metadata, timestamp}` — which carries no
    `turn_id`. -/
def add_turn_to_session (m : ManagerState) (sid q r : String)
    (meta : Option (List String)) (default_summ : List TurnRecord → String)
    (now : String) : Bool × ManagerState :=
  match load_session m sid default_summ now with
  | (m1, none) => (false, m1)
  | (m1, some sess) =>
    let sess1 := sess.addTurn q r meta now
    let m2 := { m1 with active_sessions := dictInsert m1.active_sessions sid sess1 }
    let td : TurnData := { turn_id := none, timestamp := now, query := q, response := r,
                           entities := meta }
    if m2.auto_save then
      (true, { m2 with storage := save_turn m2.storage sid td now })
    else (true, m2)

/-- `SessionManager.close_session` (source lines 356-383): save the session,
    mark the metadata closed, drop the session from memory. -/
def close_session (m : ManagerState) (sid : String) (now : String) :
    Bool × ManagerState :=
  match dictLookup m.active_sessions sid with
  | none => (false, m)
  | some _ =>
    let m1 := (save_session m sid now).2
    let st2 :=
      match dictLookup m1.storage.metas sid with
      | some meta =>
        saveMetadata m1.storage sid { meta with status := some "closed",
                                                closed_at := some now }
      | none => m1.storage
    (true, { m1 with active_sessions := dictRemove m1.active_sessions sid,
                     storage := st2 })

end MCPHub

/- ===================== session manager theorems ===================== -/

/-- C10: `create_session` on an already-active `session_id` is idempotent —
    it returns the existing session object (turns and entities untouched),
    performs no metadata write, ignores the `session_type` and `strategy`
    arguments, and leaves the whole manager state unchanged. -/
theorem create_session_idempotent (m : MCPHub.ManagerState)
    (sid session_type : String) (strategy : Option MCPHub.Strategy)
    (default_summ : List MCPHub.TurnRecord → String) (now : String)
    (sess : MCPHub.Session)
    (h : MCPHub.dictLookup m.active_sessions sid = some sess) :
    MCPHub.create_session m sid session_type strategy default_summ now = (sess, m) := by
  unfold MCPHub.create_session
  rw [h]

theorem create_session_idempotent_witness :
    MCPHub.create_session
      { active_sessions :=
          [("s", MCPHub.Session.trimming (MCPHub.TrimmingSession.init "s" 8 "general" "t0"))],
        default_strategy := MCPHub.Strategy.trimming, auto_save := true,
        storage := { logs := [], metas := [] } }
      "s" "bugfix" (some MCPHub.Strategy.summarizing) (fun _ => "") "t1"
    = (MCPHub.Session.trimming (MCPHub.TrimmingSession.init "s" 8 "general" "t0"),
      { active_sessions :=
          [("s", MCPHub.Session.trimming (MCPHub.TrimmingSession.init "s" 8 "general" "t0"))],
        default_strategy := MCPHub.Strategy.trimming, auto_save := true,
        storage := { logs := [], metas := [] } }) :=
  create_session_idempotent
    { active_sessions :=
        [("s", MCPHub.Session.trimming (MCPHub.TrimmingSession.init "s" 8 "general" "t0"))],
      default_strategy := MCPHub.Strategy.trimming, auto_save := true,
      storage := { logs := [], metas := [] } }
    "s" "bugfix" (some MCPHub.Strategy.summarizing) (fun _ => "") "t1"
    (MCPHub.Session.trimming (MCPHub.TrimmingSession.init "s" 8 "general" "t0")) rfl

/-- A fresh manager with auto-save enabled, trimming default, empty disk. -/
def MCPHub.dupManager0 : MCPHub.ManagerState :=
  { active_sessions := [], default_strategy := MCPHub.Strategy.trimming,
    auto_save := true, storage := { logs := [], metas := [] } }

/-- The run `create_session; add_turn_to_session; close_session` on one
    session: state after the create. -/
def MCPHub.dupAfterCreate : MCPHub.ManagerState :=
  (MCPHub.create_session MCPHub.dupManager0 "s" "general" none (fun _ => "") "t1").2

/-- State after adding one turn (auto-save appends one log line). -/
def MCPHub.dupAfterAdd : MCPHub.ManagerState :=
  (MCPHub.add_turn_to_session MCPHub.dupAfterCreate "s" "q" "r" none (fun _ => "") "t2").2

/-- State after closing the session (`close_session` runs `save_session`). -/
def MCPHub.dupFinal : MCPHub.ManagerState :=
  (MCPHub.close_session MCPHub.dupAfterAdd "s" "t3").2

/-- C5: after one `add_turn_to_session` and one `close_session`, the on-disk
    log of session `s` holds the single in-memory turn twice (auto-save
    appended it, then `save_session` re-appended it), while the sidecar
    metadata records `turn_count = 1`: the log length no longer equals the
    metadata turn count, the log is not a prefix of the turns ever added,
    and the turn was appended more than once. -/
theorem session_log_duplication :
    ((MCPHub.dictLookup MCPHub.dupFinal.storage.logs "s").getD []).map
        (fun td => (td.query, td.response)) = [("q", "r"), ("q", "r")] ∧
    ((MCPHub.dictLookup MCPHub.dupFinal.storage.logs "s").getD []).length = 2 ∧
    (MCPHub.dictLookup MCPHub.dupFinal.storage.metas "s").bind
        (fun meta => meta.turn_count) = some 1 ∧
    (MCPHub.dictLookup MCPHub.dupAfterAdd.active_sessions "s").map
        (fun sess => sess.dataTurns.length) = some 1 :=
  ⟨rfl, rfl, rfl, rfl⟩

namespace MCPHub

/- ===================================================================
   core/resolution/reference_detector.py  —  ReferenceDetector
   =================================================================== -/

/-- Python regex `\w` (ASCII fragment: letters, digits, underscore; the
    queries exercised by the claims are ASCII). -/
def isWordChar (c : Char) : Bool := c.isAlphanum || c = '_'

/-- Python regex `\s`: space, tab, newline, carriage return, form feed,
    vertical tab. -/
def isSpaceChar (c : Char) : Bool :=
  c = ' ' || c = '\t' || c = '\n' || c = '\r' || c = '\x0b' || c = '\x0c'

/-- Case-insensitive literal prefix match, returning the matched source
    characters (original casing, like `match.group(0)`) and the rest. -/
def ciMatch : List Char → List Char → Option (List Char × List Char)
  | [], rest => some ([], rest)
  | _ :: _, [] => none
  | p :: ps, c :: cs =>
    if p.toLower = c.toLower then
      match ciMatch ps cs with
      | some (m, r) => some (c :: m, r)
      | none => none
    else none

/-- Greedy `X+` for a character class: at least one character, then as many
    as possible (no backtracking is needed because every continuation in
    the detector's patterns starts with a disjoint character class). -/
def takeClass1 (f : Char → Bool) : List Char → Option (List Char × List Char)
  | [] => none
  | c :: cs => if f c then some (c :: cs.takeWhile f, cs.dropWhile f) else none

/-- A raw regex match: `group(0)` characters, the final `(\w+)` group when
    the pattern has one, and the remaining input. -/
abbrev RawMatch := List Char × Option (List Char) × List Char

/-- Regex alternation `(a1|a2|…)` followed by a continuation: alternatives
    are tried in order and an alternative is kept only if the continuation
    also succeeds, exactly like backtracking over a literal-word
    alternation. -/
def tryAlts (alts : List String) (rest : List Char)
    (k : List Char → Option RawMatch) : Option RawMatch :=
  match alts with
  | [] => none
  | d :: ds =>
    match ciMatch d.data rest with
    | some (m1, r1) =>
      match k r1 with
      | some (m2, noun, rem) => some (m1 ++ m2, noun, rem)
      | none => tryAlts ds rest k
    | none => tryAlts ds rest k

/-- Continuation `\s+(\w+)`. -/
def kSpaceWord (r : List Char) : Option RawMatch :=
  match takeClass1 isSpaceChar r with
  | none => none
  | some (m2, r2) =>
    match takeClass1 isWordChar r2 with
    | none => none
    | some (m3, r3) => some (m2 ++ m3, some m3, r3)

/-- `\b(d1|d2|…)\s+(\w+)` at the current position (the `\b` is checked by
    the scanner).  Used for the demonstrative patterns and — with a single
    article and a trailing `\b` made automatic by the greedy `\w+` — the
    implicit patterns. -/
def matchDetNoun (dets : List String) (rest : List Char) : Option RawMatch :=
  tryAlts dets rest kSpaceWord

/-- `\b(w1|w2|…)\b` at the current position: a bare word with a boundary on
    both sides.  Used for the pronoun patterns. -/
def matchBareWord (ws : List String) (rest : List Char) : Option RawMatch :=
  tryAlts ws rest (fun r =>
    match r with
    | [] => some ([], none, [])
    | c :: _ => if isWordChar c then none else some ([], none, r))

/-- `\b(the\s+)?(previous|last|earlier|prior)\s+(\w+)`: the greedy optional
    article is tried first, falling back to the bare alternation. -/
def matchPrevEn (rest : List Char) : Option RawMatch :=
  let core := fun (r : List Char) =>
    tryAlts ["previous", "last", "earlier", "prior"] r kSpaceWord
  match ciMatch "the".data rest with
  | some (m0, r0) =>
    match takeClass1 isSpaceChar r0 with
    | some (ms, rs) =>
      match core rs with
      | some (mc, noun, rem) => some (m0 ++ ms ++ mc, noun, rem)
      | none => core rest
    | none => core rest
  | none => core rest

/-- `\b(el|la|los|las)\s+(anterior|previo|último|última)\s+(\w+)`. -/
def matchPrevEs (rest : List Char) : Option RawMatch :=
  tryAlts ["el", "la", "los", "las"] rest (fun r1 =>
    match takeClass1 isSpaceChar r1 with
    | none => none
    | some (ms, rs) =>
      match tryAlts ["anterior", "previo", "último", "última"] rs kSpaceWord with
      | some (mc, noun, rem) => some (ms ++ mc, noun, rem)
      | none => none)

/-- `re.finditer` driver: scan left to right, attempting the pattern only at
    word boundaries (every detector pattern begins with `\b` and a word
    character), and resume after the end of each non-overlapping match.
    The fuel is the input length, which bounds the number of steps. -/
def finditerAux (f : List Char → Option RawMatch) :
    Nat → Nat → Bool → List Char → List (Nat × List Char × Option (List Char))
  | 0, _, _, _ => []
  | Nat.succ fuel, i, prevIsWord, rest =>
    match rest with
    | [] => []
    | c :: cs =>
      match (if prevIsWord then none else f rest) with
      | some (m, noun, rem) =>
        (i, m, noun) :: finditerAux f fuel (i + m.length) (isWordChar (m.getLastD c)) rem
      | none => finditerAux f fuel (i + 1) (isWordChar c) cs

def finditer (f : List Char → Option RawMatch) (s : String) :
    List (Nat × List Char × Option (List Char)) :=
  finditerAux f s.data.length 0 false s.data

/-- `ReferenceType` (reference_detector.py lines 14-19). -/
inductive ReferenceType where
  | demonstrative
  | pronoun
  | previous
  | implicit
deriving DecidableEq

/-- A detected `Reference` (reference_detector.py lines 22-43). -/
structure Reference where
  text : String
  ref_type : ReferenceType
  position : Nat
  confidence : ℚ
deriving DecidableEq

/-- `ENTITY_KEYWORDS` (reference_detector.py lines 79-83).  The source uses
    a Python set literal (with two duplicate members); membership tests are
    order-independent, and on every input exercised below at most one
    keyword matches, so the unspecified set iteration order of
    `extract_entity_type` is immaterial. -/
def ENTITY_KEYWORDS : List String :=
  ["function", "method", "class", "module", "variable", "bug", "error",
   "issue", "feature", "file", "código", "función", "clase", "método",
   "archivo", "problema"]

/-- Keyword test `noun.lower() in ENTITY_KEYWORDS` applied to a matched
    noun group. -/
def nounIsKeyword (noun : List Char) : Bool :=
  ENTITY_KEYWORDS.contains (String.mk (noun.map Char.toLower))

/-- Shared shape of the four `_detect_*` loops: run one compiled pattern
    over the query and build `Reference`s, filtering on the entity-keyword
    test when the pattern captures a noun (`needKeyword`). -/
def refsFrom (query : String) (f : List Char → Option RawMatch)
    (ty : ReferenceType) (conf : ℚ) (needKeyword : Bool) : List Reference :=
  (finditer f query).filterMap (fun t =>
    match t with
    | (i, m, nounOpt) =>
      match nounOpt with
      | some noun =>
        if needKeyword then
          if nounIsKeyword noun then
            some { text := String.mk m, ref_type := ty, position := i, confidence := conf }
          else none
        else some { text := String.mk m, ref_type := ty, position := i, confidence := conf }
      | none =>
        if needKeyword then none
        else some { text := String.mk m, ref_type := ty, position := i, confidence := conf })

/-- `ReferenceDetector.detect` (reference_detector.py lines 95-120):
    demonstratives, then pronouns, then previous-references, then implicit
    references; within each class the English pattern runs before the
    Spanish one, each as a full `finditer` pass. -/
def detect (query : String) : List Reference :=
  refsFrom query (matchDetNoun ["that", "this", "these", "those"])
    ReferenceType.demonstrative ((9:ℚ)/10) true ++
  refsFrom query (matchDetNoun ["esa", "ese", "esta", "este", "esas", "esos", "estas", "estos"])
    ReferenceType.demonstrative ((9:ℚ)/10) true ++
  refsFrom query (matchBareWord ["it", "its", "them", "their"])
    ReferenceType.pronoun ((7:ℚ)/10) false ++
  refsFrom query (matchBareWord ["lo", "la", "los", "las", "le", "les"])
    ReferenceType.pronoun ((7:ℚ)/10) false ++
  refsFrom query matchPrevEn ReferenceType.previous ((17:ℚ)/20) true ++
  refsFrom query matchPrevEs ReferenceType.previous ((17:ℚ)/20) true ++
  refsFrom query (matchDetNoun ["the"]) ReferenceType.implicit ((3:ℚ)/5) true ++
  refsFrom query (matchDetNoun ["el", "la"]) ReferenceType.implicit ((3:ℚ)/5) true

/-- Substring test (`needle in haystack` on Python strings). -/
def charsContainSub : List Char → List Char → Bool
  | hay, sub =>
    match hay with
    | [] => sub.isEmpty
    | _ :: t => sub.isPrefixOf hay || charsContainSub t sub

def strContainsSub (hay sub : String) : Bool := charsContainSub hay.data sub.data

/-- `ReferenceDetector.extract_entity_type` (reference_detector.py lines
    227-243): the first entity keyword occurring as a substring of the
    lower-cased reference text. -/
def extract_entity_type (reference_text : String) : Option String :=
  ENTITY_KEYWORDS.find? (fun kw => strContainsSub (strLower reference_text) kw)

end MCPHub

namespace MCPHub

/- ===================================================================
   core/resolution/contextual_resolver.py  —  ContextualResolver
   =================================================================== -/

/-- A `ResolvedReference` (contextual_resolver.py lines 15-39). -/
structure ResolvedReference where
  original_text : String
  resolved_entity : String
  confidence : ℚ
  source : String
  context : Option String
deriving DecidableEq

/-- One entry of `session_history` as consumed by `resolve_query`: the
    source reads `turn.get('turn_id', 0)`, `query`, `response` and
    `metadata['entities']` (modelled as the optional `entities`). -/
structure HistoryTurn where
  turn_id : Nat
  query : String
  response : String
  entities : Option (List String)
deriving DecidableEq

/-- An entity candidate extracted from history (the dicts built in
    `_extract_entities_from_history`; the timestamp field is never read by
    the resolution path and is omitted). -/
structure SessionEntity where
  name : String
  turn_id : Nat
  context : String
deriving DecidableEq

/-- Python `str.isalnum()`: non-empty and all alphanumeric. -/
def pyIsAlnum (l : List Char) : Bool := !l.isEmpty && l.all Char.isAlphanum

/-- `ContextualResolver._extract_entities_from_history` (source lines
    121-167): per turn, first the metadata entities (context = the whole
    turn text), then every whitespace word containing an underscore whose
    underscore-free remainder is alphanumeric (context = the ±5-word
    window). -/
def extract_entities_from_history (history : List HistoryTurn) : List SessionEntity :=
  history.foldl (fun acc turn =>
    let full_text := turn.query ++ " " ++ turn.response
    let fromMeta :=
      match turn.entities with
      | some es => es.map (fun name =>
          { name := name, turn_id := turn.turn_id, context := full_text : SessionEntity })
      | none => []
    let words := pySplitWhitespace full_text
    let fromWords := words.enum.filterMap (fun p =>
      if p.2.data.contains '_' && pyIsAlnum (p.2.data.filter (fun c => c ≠ '_')) then
        some { name := p.2, turn_id := turn.turn_id,
               context := String.intercalate " "
                 ((words.take (min words.length (p.1 + 6))).drop (p.1 - 5)) : SessionEntity }
      else none)
    acc ++ fromMeta ++ fromWords) []

/-- The `type_keywords` table of `_resolve_from_history` (source lines
    237-242), read with `.get(entity_type, [])`. -/
def typeKeywords (entity_type : String) : List String :=
  if entity_type = "function" then ["function", "método", "def"]
  else if entity_type = "class" then ["class", "clase"]
  else if entity_type = "bug" then ["bug", "error", "issue"]
  else if entity_type = "file" then ["file", "archivo", ".py", ".js"]
  else []

/-- `ResolvedReference(original_text=reference.text, resolved_entity=…,
    confidence=reference.confidence * factor, source=…, context=…)` — the
    construction shared by both resolution strategies. -/
def mkResolved (ref : Reference) (entity : String) (factor : ℚ) (src : String)
    (ctx : Option String) : ResolvedReference :=
  { original_text := ref.text, resolved_entity := entity,
    confidence := ref.confidence * factor, source := src, context := ctx }

/-- `ContextualResolver._resolve_from_history` (source lines 228-283):
    filter history entities to those whose context mentions a keyword of
    the requested type, fall back to all of them, and take the one with the
    highest `turn_id` (stable descending sort, so ties keep extraction
    order).  Both the `previous` and the demonstrative branch of the source
    sort the same way. -/
def resolve_from_history (ref : Reference) (entity_type : String)
    (session_entities : List SessionEntity) : Option ResolvedReference :=
  let keywords := typeKeywords entity_type
  let relevant0 := session_entities.filter (fun e =>
    keywords.any (fun kw => strContainsSub (strLower e.context) kw))
  let relevant := if relevant0.isEmpty then session_entities else relevant0
  match relevant.insertionSort (fun a b => b.turn_id ≤ a.turn_id) with
  | [] => none
  | e :: _ =>
    some (mkResolved ref e.name ((9:ℚ)/10) "session_history"
      (some (String.mk (e.context.data.take 100))))

/-- `ContextualResolver._resolve_from_tracker` (source lines 285-301): the
    reference implementation is an explicit placeholder that always returns
    `None`. -/
def resolve_from_tracker (_ref : Reference) (_entity_type : String) :
    Option ResolvedReference := none

/-- The code index as read by `_resolve_from_code_index`: the dicts under
    the `functions` / `classes` keys, reduced to their key lists (the
    source only uses `len(entities)` and `list(entities.keys())[0]`). -/
structure CodeIndex where
  functions : List String
  classes : List String
deriving DecidableEq

/-- `entities` when exactly one match exists (source lines 324-335):
    `list(entities.keys())[0]` guarded by `len(entities) == 1`. -/
def singleCodeEntity (ref : Reference) (es : List String) : Option ResolvedReference :=
  match es with
  | [name] =>
    some (mkResolved ref name ((1:ℚ)/2) "code_index"
      (some "Only one entity of this type in codebase"))
  | _ => none

/-- `ContextualResolver._resolve_from_code_index` (source lines 303-335):
    `type_mapping` sends `function` and `method` to the `functions` table
    and `class` to the `classes` table; resolve only when exactly one
    entity of the mapped type exists. -/
def resolve_from_code_index (ref : Reference) (entity_type : String)
    (code_index : CodeIndex) : Option ResolvedReference :=
  if entity_type = "function" then singleCodeEntity ref code_index.functions
  else if entity_type = "class" then singleCodeEntity ref code_index.classes
  else if entity_type = "method" then singleCodeEntity ref code_index.functions
  else none

/-- `ContextualResolver._resolve_reference` (source lines 169-226):
    extract the entity type; for demonstrative and previous references try
    the session history; then the tracker (a stub that never resolves);
    then the code index. -/
def resolve_reference (ref : Reference) (session_entities : List SessionEntity)
    (entity_tracker : Option Unit) (code_index : Option CodeIndex) :
    Option ResolvedReference :=
  match extract_entity_type ref.text with
  | none => none
  | some entity_type =>
    match (if ref.ref_type = ReferenceType.demonstrative ∨
              ref.ref_type = ReferenceType.previous
           then resolve_from_history ref entity_type session_entities
           else none) with
    | some r => some r
    | none =>
      match (match entity_tracker with
             | some _ => resolve_from_tracker ref entity_type
             | none => none) with
      | some r => some r
      | none =>
        match code_index with
        | some ci => resolve_from_code_index ref entity_type ci
        | none => none

/-- Python `str.replace(old, new)` for a non-empty `old`: replace every
    non-overlapping occurrence, scanning left to right (implemented with a
    length fuel so that it reduces inside the kernel). -/
def replaceAllAux (pat rep : List Char) : Nat → List Char → List Char
  | _, [] => []
  | 0, l => l
  | Nat.succ fuel, c :: cs =>
    if pat.isPrefixOf (c :: cs) then rep ++ replaceAllAux pat rep fuel ((c :: cs).drop pat.length)
    else c :: replaceAllAux pat rep fuel cs

/-- `str.replace`; every caller below passes a non-empty pattern (a matched
    reference span), for which this agrees with Python. -/
def pyReplace (s pat rep : String) : String :=
  if pat = "" then s else String.mk (replaceAllAux pat.data rep.data s.data.length s.data)

/-- `ContextualResolver.resolve_query` (source lines 67-119): detect the
    references, extract the history entities, then fold over the detected
    references accumulating the rewritten query (a global `str.replace`
    per resolved reference) and the list of resolutions. -/
def resolve_query (query : String) (session_history : List HistoryTurn)
    (entity_tracker : Option Unit) (code_index : Option CodeIndex) :
    String × List ResolvedReference :=
  let references := detect query
  if references.isEmpty then (query, [])
  else
    let session_entities := extract_entities_from_history session_history
    references.foldl (fun acc ref =>
      match resolve_reference ref session_entities entity_tracker code_index with
      | some resolved =>
        (pyReplace acc.1 ref.text resolved.resolved_entity, acc.2 ++ [resolved])
      | none => acc) (query, [])

/-- The successful resolutions, in detection order — the list
    `resolve_query` returns. -/
def resolvedReferences (query : String) (session_history : List HistoryTurn)
    (entity_tracker : Option Unit) (code_index : Option CodeIndex) :
    List ResolvedReference :=
  (detect query).filterMap (fun ref =>
    resolve_reference ref (extract_entities_from_history session_history)
      entity_tracker code_index)

/-- The rewrite the (amended) specification describes: starting from the
    original query, replace — for each resolved reference in order — every
    occurrence of its literal span with the resolved entity name. -/
def rewriteResolved (query : String) (resolved : List ResolvedReference) : String :=
  resolved.foldl (fun q r => pyReplace q r.original_text r.resolved_entity) query

end MCPHub

/- ===================== resolver lemmas ===================== -/

theorem MCPHub.resolve_from_history_orig (ref : MCPHub.Reference) (et : String)
    (ents : List MCPHub.SessionEntity) (r : MCPHub.ResolvedReference)
    (h : MCPHub.resolve_from_history ref et ents = some r) :
    r.original_text = ref.text := by
  simp only [MCPHub.resolve_from_history] at h
  split at h
  · exact absurd h (by simp)
  · injection h with h2
    rw [← h2]
    rfl

theorem MCPHub.singleCodeEntity_orig (ref : MCPHub.Reference) (es : List String)
    (r : MCPHub.ResolvedReference) (h : MCPHub.singleCodeEntity ref es = some r) :
    r.original_text = ref.text := by
  unfold MCPHub.singleCodeEntity at h
  split at h
  · injection h with h2
    rw [← h2]
    rfl
  · exact absurd h (by simp)

theorem MCPHub.resolve_from_code_index_orig (ref : MCPHub.Reference) (et : String)
    (ci : MCPHub.CodeIndex) (r : MCPHub.ResolvedReference)
    (h : MCPHub.resolve_from_code_index ref et ci = some r) :
    r.original_text = ref.text := by
  unfold MCPHub.resolve_from_code_index at h
  split at h
  · exact MCPHub.singleCodeEntity_orig ref _ r h
  · split at h
    · exact MCPHub.singleCodeEntity_orig ref _ r h
    · split at h
      · exact MCPHub.singleCodeEntity_orig ref _ r h
      · exact absurd h (by simp)

theorem MCPHub.resolve_reference_orig (ref : MCPHub.Reference)
    (ents : List MCPHub.SessionEntity) (tr : Option Unit) (ci : Option MCPHub.CodeIndex)
    (r : MCPHub.ResolvedReference)
    (h : MCPHub.resolve_reference ref ents tr ci = some r) :
    r.original_text = ref.text := by
  unfold MCPHub.resolve_reference at h
  split at h
  · exact absurd h (by simp)
  · rename_i et heq
    split at h
    · rename_i r1 hr1
      injection h with h2
      subst h2
      split at hr1
      · exact MCPHub.resolve_from_history_orig ref et ents r1 hr1
      · exact absurd hr1 (by simp)
    · split at h
      · rename_i r2 hr2
        injection h with h2
        subst h2
        split at hr2
        · exact absurd hr2 (by simp [MCPHub.resolve_from_tracker])
        · exact absurd hr2 (by simp)
      · split at h
        · exact MCPHub.resolve_from_code_index_orig ref et _ r h
        · exact absurd h (by simp)

theorem MCPHub.resolve_fold (ents : List MCPHub.SessionEntity) (tr : Option Unit)
    (ci : Option MCPHub.CodeIndex) :
    ∀ (refs : List MCPHub.Reference) (q0 : String) (l0 : List MCPHub.ResolvedReference),
      (refs.foldl (fun acc ref =>
        match MCPHub.resolve_reference ref ents tr ci with
        | some resolved =>
          (MCPHub.pyReplace acc.1 ref.text resolved.resolved_entity, acc.2 ++ [resolved])
        | none => acc) (q0, l0))
      = (MCPHub.rewriteResolved q0
          (refs.filterMap (fun ref => MCPHub.resolve_reference ref ents tr ci)),
        l0 ++ refs.filterMap (fun ref => MCPHub.resolve_reference ref ents tr ci)) := by
  intro refs
  induction refs with
  | nil =>
    intro q0 l0
    simp [MCPHub.rewriteResolved]
  | cons ref rest ih =>
    intro q0 l0
    rw [List.foldl_cons, List.filterMap_cons]
    cases hres : MCPHub.resolve_reference ref ents tr ci with
    | none => simpa using ih q0 l0
    | some r =>
      simp only
      rw [ih (MCPHub.pyReplace q0 ref.text r.resolved_entity) (l0 ++ [r])]
      have horig := MCPHub.resolve_reference_orig ref ents tr ci r hres
      have hq : MCPHub.rewriteResolved q0
            (r :: rest.filterMap (fun ref => MCPHub.resolve_reference ref ents tr ci))
          = MCPHub.rewriteResolved (MCPHub.pyReplace q0 ref.text r.resolved_entity)
            (rest.filterMap (fun ref => MCPHub.resolve_reference ref ents tr ci)) := by
        unfold MCPHub.rewriteResolved
        rw [List.foldl_cons, horig]
      rw [hq]
      simp

/-- C3 counterexample: the query `"fix that function"` with a session turn
    whose metadata entity is literally named `"that function"` resolves the
    reference to that very name, so the rewritten query still contains the
    resolved reference span (and, the span being replaced by itself, no
    occurrence is effectively replaced). -/
theorem resolve_rewrite_counterexample :
    (MCPHub.resolve_query "fix that function"
        [{ turn_id := 1, query := "", response := "", entities := some ["that function"] }]
        none none).2.map (fun r => (r.original_text, r.resolved_entity))
      = [("that function", "that function")] ∧
    (MCPHub.resolve_query "fix that function"
        [{ turn_id := 1, query := "", response := "", entities := some ["that function"] }]
        none none).1 = "fix that function" ∧
    MCPHub.strContainsSub
      (MCPHub.resolve_query "fix that function"
        [{ turn_id := 1, query := "", response := "", entities := some ["that function"] }]
        none none).1 "that function" = true :=
  ⟨rfl, rfl, rfl⟩

/-- C3 amended: `resolve_query` returns exactly the successful resolutions
    of the detected references, in detection order, and the rewritten query
    equals the original query with, for each resolved reference in that
    order, every occurrence of its literal span replaced by the resolved
    entity name (a global string replace per reference; unresolved
    references trigger no replacement, so with no resolution the query is
    returned unchanged).  The rewritten query may still contain a resolved
    span when a replacement re-introduces it. -/
theorem resolve_query_rewrite (query : String) (history : List MCPHub.HistoryTurn)
    (tracker : Option Unit) (code_index : Option MCPHub.CodeIndex) :
    (MCPHub.resolve_query query history tracker code_index).2
      = MCPHub.resolvedReferences query history tracker code_index ∧
    (MCPHub.resolve_query query history tracker code_index).1
      = MCPHub.rewriteResolved query
          (MCPHub.resolve_query query history tracker code_index).2 := by
  simp only [MCPHub.resolve_query, MCPHub.resolvedReferences]
  cases hdet : (MCPHub.detect query).isEmpty
  · rw [if_neg (by simp [hdet])]
    rw [MCPHub.resolve_fold (MCPHub.extract_entities_from_history history) tracker code_index
      (MCPHub.detect query) query []]
    exact ⟨by simp, by simp⟩
  · rw [List.isEmpty_iff.mp hdet]
    exact ⟨by simp, by simp [MCPHub.rewriteResolved]⟩
